import Mathlib

/-!
Shallow embedding of the window-management core of the repository
(`src/components/ui/window-manager.tsx` and
`src/components/ui/resizable-window.tsx`).

Modelling conventions:
* JavaScript numbers used for geometry (positions, sizes, viewport
  dimensions) are modelled as exact rationals `ℚ`; `zIndex` and the
  monotone counters are natural numbers.
* React component values (`component`, `icon`, `props`) are opaque to the
  window core; they are modelled as opaque `Nat` tokens / `Option Nat`.
* Window ids are produced in the source by
  `window-${Date.now()}-${Math.random().toString(36).substr(2, 9)}`,
  i.e. a process-local fresh-id generator.  We model the generator as a
  counter `nextId` threaded through the manager state; each generated id
  is fresh (distinct from every previously generated one), which is the
  property the surrounding code relies on.
* `applyLayoutPreset` runs its `createWindow` calls inside a `setTimeout`
  callback.  The `createWindow` closure it invokes was captured at the
  render in which the button was clicked, so all calls in the loop read
  the SAME (pre-call) values of `windows.length` and `nextZIndex`, while
  the `setWindows(prev => ...)` / `setNextZIndex(prev => prev + 1)`
  functional updates thread the list and the counters correctly.  The
  embedding reproduces exactly this: every preset window receives the
  pre-call `nextZIndex`, and the cascade default position is computed
  from the pre-call window count.
* `arrangeWindows` reads `window.innerWidth` / `window.innerHeight`; the
  viewport dimensions are passed as explicit arguments `vw`, `vh`.
-/

namespace WM

/-- Planar point, `{x, y}` in the source. -/
structure Pt where
  x : ℚ
  y : ℚ
deriving DecidableEq, Repr

/-- Extent, `{width, height}` in the source. -/
structure Sz where
  width : ℚ
  height : ℚ
deriving DecidableEq, Repr

/-- The `type` field of a window: 'terminal' | 'browser' | 'editor' |
'monitor' | 'custom'. -/
inductive WType where
  | terminal | browser | editor | monitor | custom
deriving DecidableEq, Repr

/-- Source `WindowState` from `window-manager.tsx` (the manager's per-window
record).  `component`, `icon` and `props` are opaque tokens. -/
structure WindowState where
  id : Nat
  title : String
  component : Nat
  props : Option Nat
  position : Pt
  size : Sz
  isMinimized : Bool
  isMaximized : Bool
  zIndex : Nat
  icon : Option Nat
  wtype : WType
deriving DecidableEq, Repr

/-- Source `Partial<WindowState>`: the `options` argument of `createWindow` and
the entries of a layout preset.  A `none` field is an absent key. -/
structure WindowOptions where
  id : Option Nat := none
  title : Option String := none
  component : Option Nat := none
  props : Option Nat := none
  position : Option Pt := none
  size : Option Sz := none
  isMinimized : Option Bool := none
  isMaximized : Option Bool := none
  zIndex : Option Nat := none
  icon : Option Nat := none
  wtype : Option WType := none
deriving DecidableEq, Repr

/-- Manager state: the window list, the `nextZIndex` counter (starts at
1) and the fresh-id generator counter. -/
structure MState where
  windows : List WindowState
  nextZIndex : Nat
  nextId : Nat
deriving DecidableEq, Repr

/-- Initial manager state: `useState<WindowState[]>([])`,
`useState(1)` for `nextZIndex`. -/
def initState : MState := { windows := [], nextZIndex := 1, nextId := 0 }

/-- The object literal built by `createWindow`: every explicitly listed
field is followed by the `...options` spread, so any field present in
`options` (including `id` and `zIndex`) wins. -/
def mkWindow (freshId : Nat) (defPos : Pt) (nextZ : Nat)
    (title : String) (comp : Nat) (o : WindowOptions) : WindowState :=
  { id := o.id.getD freshId
    title := o.title.getD title
    component := o.component.getD comp
    props := o.props
    position := o.position.getD defPos
    size := o.size.getD ⟨600, 400⟩
    isMinimized := o.isMinimized.getD false
    isMaximized := o.isMaximized.getD false
    zIndex := o.zIndex.getD nextZ
    icon := o.icon
    wtype := o.wtype.getD WType.custom }

/-- Source `createWindow(title, component, options)`: cascade default position
`(100 + 30·count, 100 + 30·count)`, zIndex from the counter, window
appended, counter incremented. -/
def createWindow (title : String) (comp : Nat) (o : WindowOptions)
    (s : MState) : MState :=
  let cascade : ℚ := (s.windows.length : ℚ) * 30
  let defPos : Pt := ⟨100 + cascade, 100 + cascade⟩
  let w := mkWindow s.nextId defPos s.nextZIndex title comp o
  { windows := s.windows ++ [w]
    nextZIndex := s.nextZIndex + 1
    nextId := s.nextId + 1 }

/-- Source `focusWindow(id)`: the matching window's zIndex becomes the counter
value; the counter is incremented (also when no window matches). -/
def focusWindow (id : Nat) (s : MState) : MState :=
  { s with
    windows := s.windows.map fun w =>
      { w with zIndex := if w.id = id then s.nextZIndex else w.zIndex }
    nextZIndex := s.nextZIndex + 1 }

/-- Source `closeWindow(id)`: filter out the matching window. -/
def closeWindow (id : Nat) (s : MState) : MState :=
  { s with windows := s.windows.filter fun w => !(w.id == id) }

/-- Source `minimizeWindow(id)`: toggle `isMinimized` of the matching window. -/
def minimizeWindow (id : Nat) (s : MState) : MState :=
  { s with
    windows := s.windows.map fun w =>
      { w with isMinimized := if w.id = id then !w.isMinimized else w.isMinimized } }

/-- Source `maximizeWindow(id)`: toggle `isMaximized` of the matching window. -/
def maximizeWindow (id : Nat) (s : MState) : MState :=
  { s with
    windows := s.windows.map fun w =>
      { w with isMaximized := if w.id = id then !w.isMaximized else w.isMaximized } }

/-- Source `updateWindowPosition(id, position)`. -/
def updateWindowPosition (id : Nat) (p : Pt) (s : MState) : MState :=
  { s with
    windows := s.windows.map fun w =>
      { w with position := if w.id = id then p else w.position } }

/-- Source `updateWindowSize(id, size)`. -/
def updateWindowSize (id : Nat) (sz : Sz) (s : MState) : MState :=
  { s with
    windows := s.windows.map fun w =>
      { w with size := if w.id = id then sz else w.size } }

/-- Title passed to `createWindow` for preset entry `idx`:
`windowConfig.title || Window ${index + 1}`. -/
def presetTitle (idx : Nat) (o : WindowOptions) : String :=
  o.title.getD ("Window " ++ toString (idx + 1))

/-- The sequence of `createWindow` calls performed by the
`applyLayoutPreset` timeout callback, on the enumerated preset list.
`defPos` and `staleZ` are the (stale) cascade default position and
`nextZIndex` captured by the closure; the id generator is threaded
functionally.  The placeholder content renderer is the opaque token 0. -/
def presetCreate (defPos : Pt) (staleZ : Nat) :
    List (Nat × WindowOptions) → Nat → List WindowState
  | [], _ => []
  | (idx, o) :: rest, nid =>
      mkWindow nid defPos staleZ (presetTitle idx o) 0 o ::
        presetCreate defPos staleZ rest (nid + 1)

/-- Source `applyLayoutPreset(preset)`: clears the window list, then creates one
window per preset entry through the captured (stale) `createWindow`
closure: every entry sees the pre-call `windows.length` (cascade default)
and the pre-call `nextZIndex`; the `nextZIndex` counter itself is
advanced once per entry by the functional updates. -/
def applyLayoutPreset (pre : List WindowOptions) (s : MState) : MState :=
  let staleCascade : ℚ := (s.windows.length : ℚ) * 30
  let defPos : Pt := ⟨100 + staleCascade, 100 + staleCascade⟩
  { windows := presetCreate defPos s.nextZIndex pre.enum s.nextId
    nextZIndex := s.nextZIndex + pre.length
    nextId := s.nextId + pre.length }

/-- Arrangement modes of `arrangeWindows`. -/
inductive Arrangement where
  | cascade | tile | stack
deriving DecidableEq, Repr

/-- Translation of `Math.ceil(Math.sqrt(n))` for a natural `n`. -/
def ceilSqrt (n : Nat) : Nat :=
  if Nat.sqrt n * Nat.sqrt n = n then Nat.sqrt n else Nat.sqrt n + 1

/-- Translation of `Math.ceil(n / c)` for naturals (`c > 0`; the `c = 0` case only
arises in the source as `0 / 0 = NaN` on an empty visible list, where
the value is never used). -/
def ceilDiv (n c : Nat) : Nat := (n + c - 1) / c

/-- Source `arrangeWindows(arrangement)`.  `vw`, `vh` are
`window.innerWidth` / `window.innerHeight` at call time.
Note: `cascade` and `stack` map over ALL windows (minimized included);
only `tile` returns minimized windows unchanged.  `stack` overwrites
`zIndex` with `index + 1` and does not touch the `nextZIndex` counter. -/
def arrangeWindows (mode : Arrangement) (vw vh : ℚ) (s : MState) : MState :=
  let visibleWindows := s.windows.filter fun w => !w.isMinimized
  match mode with
  | Arrangement.cascade =>
      { s with
        windows := s.windows.enum.map fun p =>
          { p.2 with
            position := ⟨50 + (p.1 : ℚ) * 30, 50 + (p.1 : ℚ) * 30⟩
            size := ⟨600, 400⟩
            isMaximized := false } }
  | Arrangement.tile =>
      let containerWidth : ℚ := vw - 100
      let containerHeight : ℚ := vh - 150
      let cols := ceilSqrt visibleWindows.length
      let rows := ceilDiv visibleWindows.length cols
      let windowWidth : ℚ := containerWidth / (cols : ℚ)
      let windowHeight : ℚ := containerHeight / (rows : ℚ)
      { s with
        windows := s.windows.map fun w =>
          if w.isMinimized then w else
          let vi := visibleWindows.findIdx fun v => v.id == w.id
          { w with
            position := ⟨50 + ((vi % cols : Nat) : ℚ) * windowWidth,
                         50 + ((vi / cols : Nat) : ℚ) * windowHeight⟩
            size := ⟨windowWidth - 10, windowHeight - 10⟩
            isMaximized := false } }
  | Arrangement.stack =>
      { s with
        windows := s.windows.enum.map fun p =>
          { p.2 with
            position := ⟨100, 100⟩
            size := ⟨800, 600⟩
            isMaximized := false
            zIndex := p.1 + 1 } }

/-- The windows rendered on the surface: `windows.filter(w => !w.isMinimized)`. -/
def renderedWindows (s : MState) : List WindowState :=
  s.windows.filter fun w => !w.isMinimized

/-- The taskbar entries: `windows.filter(w => w.isMinimized)`. -/
def taskbarWindows (s : MState) : List WindowState :=
  s.windows.filter fun w => w.isMinimized

/-- The claim-level distinctness predicate: zIndex values of the live
window set are pairwise distinct. -/
def ZDistinct (s : MState) : Prop := (s.windows.map (·.zIndex)).Nodup

/-- Ids of the live window set are pairwise distinct. -/
def IdsDistinct (s : MState) : Prop := (s.windows.map (·.id)).Nodup

/-- All live zIndex values are below the `nextZIndex` counter. -/
def ZBounded (s : MState) : Prop := ∀ w ∈ s.windows, w.zIndex < s.nextZIndex

/-- All live ids are below the id generator counter. -/
def IdBounded (s : MState) : Prop := ∀ w ∈ s.windows, w.id < s.nextId

/-- The manager's inductive invariant. -/
def Inv (s : MState) : Prop := ZBounded s ∧ IdBounded s ∧ ZDistinct s ∧ IdsDistinct s

/-! ### ResizableWindow: drag and resize handlers
(`resizable-window.tsx`) -/

/-- The eight resize handles, each started with the literal direction
string shown in the source (`'top-left'`, ..., `'right'`). -/
inductive Dir where
  | top | bottom | left | right
  | topLeft | topRight | bottomLeft | bottomRight
deriving DecidableEq, Repr

/-- Test `resizeDirection.includes('left')` on the eight handle strings. -/
def Dir.hasLeft : Dir → Bool
  | Dir.left | Dir.topLeft | Dir.bottomLeft => true
  | _ => false

/-- Test `resizeDirection.includes('right')` on the eight handle strings. -/
def Dir.hasRight : Dir → Bool
  | Dir.right | Dir.topRight | Dir.bottomRight => true
  | _ => false

/-- Test `resizeDirection.includes('top')` on the eight handle strings. -/
def Dir.hasTop : Dir → Bool
  | Dir.top | Dir.topLeft | Dir.topRight => true
  | _ => false

/-- Test `resizeDirection.includes('bottom')` on the eight handle strings. -/
def Dir.hasBottom : Dir → Bool
  | Dir.bottom | Dir.bottomLeft | Dir.bottomRight => true
  | _ => false

/-- The snapshot stored by `handleResizeStart`: the POINTER coordinates
at mouse-down (`e.clientX`, `e.clientY`) together with the size at
mouse-down.  Note that `x`/`y` are mouse coordinates, not the window
position. -/
structure ResizeStart where
  x : ℚ
  y : ℚ
  width : ℚ
  height : ℚ
deriving DecidableEq, Repr

/-- One step of the dragging branch of `handleMouseMove`: candidate
position `mouse − dragStart`, then each axis clamped by
`Math.max(0, Math.min(v, viewport − windowDimension))`.  `dragStart`
is the anchor offset stored by `handleMouseDown`
(`e.clientX − position.x`, `e.clientY − position.y`). -/
def dragMove (dragStart : Pt) (size : Sz) (vw vh : ℚ) (mouse : Pt) : Pt :=
  ⟨max 0 (min (mouse.x - dragStart.x) (vw - size.width)),
   max 0 (min (mouse.y - dragStart.y) (vh - size.height))⟩

/-- A whole drag sequence: the stored position after each pointer-move
event (`setPosition(newPosition)`), which is also exactly the payload of
the `onMove` notification emitted at that event. -/
def dragTrace (dragStart : Pt) (size : Sz) (vw vh : ℚ)
    (mice : List Pt) : List Pt :=
  mice.map (dragMove dragStart size vw vh)

/-- One step of the resizing branch of `handleMouseMove`.  `pos` is the
window position state at the time of the event; the result is the pair
`(new size, new position)` written back by `setSize`/`setPosition` and
emitted through `onResize`/`onMove`.  Left/top branches overwrite the
position with `resizeStart.{x,y} + delta`, i.e. with the CURRENT MOUSE
coordinate, unconditionally — also when the size was clamped. -/
def resizeMove (rs : ResizeStart) (dir : Dir) (minSize maxSize : Sz)
    (pos : Pt) (mouse : Pt) : Sz × Pt :=
  let deltaX := mouse.x - rs.x
  let deltaY := mouse.y - rs.y
  let w0 := rs.width
  let w1 := if dir.hasRight then
      max minSize.width (min maxSize.width (rs.width + deltaX)) else w0
  let w2 := if dir.hasLeft then
      max minSize.width (min maxSize.width (rs.width - deltaX)) else w1
  let x1 := if dir.hasLeft then rs.x + deltaX else pos.x
  let h0 := rs.height
  let h1 := if dir.hasBottom then
      max minSize.height (min maxSize.height (rs.height + deltaY)) else h0
  let h2 := if dir.hasTop then
      max minSize.height (min maxSize.height (rs.height - deltaY)) else h1
  let y1 := if dir.hasTop then rs.y + deltaY else pos.y
  (⟨w2, h2⟩, ⟨x1, y1⟩)

/-! ### Mounted ResizableWindow internal geometry
The manager renders `windows.filter(w => !w.isMinimized)` as
`ResizableWindow` elements keyed by id, passing the stored geometry as
`initialPosition` / `initialSize`.  Inside `ResizableWindow` these only
seed `useState`; a prop change on an already-mounted window never
reaches the rendered geometry.  A window filtered out (minimized) is
unmounted; restoring it remounts with the then-current stored
geometry. -/

/-- Internal `useState` geometry of a mounted `ResizableWindow`. -/
structure RWState where
  position : Pt
  size : Sz
deriving DecidableEq, Repr

/-- React reconciliation of the rendered window list against the
previously mounted components `m` (an association list keyed by window
id): a window already mounted keeps its internal geometry; a freshly
mounted window seeds it from the manager's stored geometry. -/
def reconcile (m : List (Nat × RWState)) (s : MState) :
    List (Nat × RWState) :=
  (s.windows.filter fun w => !w.isMinimized).map fun w =>
    (w.id, (m.lookup w.id).getD ⟨w.position, w.size⟩)

/-- The on-screen style computed from the `isMaximized` prop and the
internal geometry: maximized uses the full viewport, otherwise the
internal `position`/`size` state. -/
def renderedStyle (isMaximized : Bool) (rw : RWState) (vw vh : ℚ) :
    Pt × Sz :=
  if isMaximized then (⟨0, 0⟩, ⟨vw, vh⟩) else (rw.position, rw.size)

/-! ### Operation language and reachability -/

/-- Manager operations reachable from the UI, used to express
"every operation sequence". -/
inductive WMOp where
  | create (title : String) (comp : Nat) (o : WindowOptions)
  | focus (id : Nat)
  | close (id : Nat)
  | mini (id : Nat)
  | maxi (id : Nat)
  | movePos (id : Nat) (p : Pt)
  | resize (id : Nat) (sz : Sz)
  | arrange (m : Arrangement) (vw vh : ℚ)
  | preset (pre : List WindowOptions)
deriving DecidableEq, Repr

/-- Interpretation of one operation. -/
def applyWMOp : WMOp → MState → MState
  | WMOp.create t c o => createWindow t c o
  | WMOp.focus id => focusWindow id
  | WMOp.close id => closeWindow id
  | WMOp.mini id => minimizeWindow id
  | WMOp.maxi id => maximizeWindow id
  | WMOp.movePos id p => updateWindowPosition id p
  | WMOp.resize id sz => updateWindowSize id sz
  | WMOp.arrange m vw vh => arrangeWindows m vw vh
  | WMOp.preset pre => applyLayoutPreset pre

/-- Run a list of operations from the initial state, left to right. -/
def runOps (ops : List WMOp) : MState :=
  ops.foldl (fun s op => applyWMOp op s) initState

/-- States reachable by any sequence of manager operations whose
`createWindow`/preset options do not override `id` or `zIndex`
(the source UI never passes either). -/
inductive Reach : MState → Prop where
  | init : Reach initState
  | create {s} (t : String) (c : Nat) (o : WindowOptions)
      (hid : o.id = none) (hz : o.zIndex = none) :
      Reach s → Reach (createWindow t c o s)
  | focus {s} (id : Nat) : Reach s → Reach (focusWindow id s)
  | close {s} (id : Nat) : Reach s → Reach (closeWindow id s)
  | mini {s} (id : Nat) : Reach s → Reach (minimizeWindow id s)
  | maxi {s} (id : Nat) : Reach s → Reach (maximizeWindow id s)
  | movePos {s} (id : Nat) (p : Pt) : Reach s → Reach (updateWindowPosition id p s)
  | resize {s} (id : Nat) (sz : Sz) : Reach s → Reach (updateWindowSize id sz s)
  | arrange {s} (m : Arrangement) (vw vh : ℚ) :
      Reach s → Reach (arrangeWindows m vw vh s)
  | preset {s} (pre : List WindowOptions)
      (h : ∀ o ∈ pre, o.id = none ∧ o.zIndex = none) :
      Reach s → Reach (applyLayoutPreset pre s)

/-- States reachable when additionally neither `arrangeWindows('stack')`
nor `applyLayoutPreset` is used — the fragment on which the z-order
invariant actually holds. -/
inductive BenignReach : MState → Prop where
  | init : BenignReach initState
  | create {s} (t : String) (c : Nat) (o : WindowOptions)
      (hid : o.id = none) (hz : o.zIndex = none) :
      BenignReach s → BenignReach (createWindow t c o s)
  | focus {s} (id : Nat) : BenignReach s → BenignReach (focusWindow id s)
  | close {s} (id : Nat) : BenignReach s → BenignReach (closeWindow id s)
  | mini {s} (id : Nat) : BenignReach s → BenignReach (minimizeWindow id s)
  | maxi {s} (id : Nat) : BenignReach s → BenignReach (maximizeWindow id s)
  | movePos {s} (id : Nat) (p : Pt) :
      BenignReach s → BenignReach (updateWindowPosition id p s)
  | resize {s} (id : Nat) (sz : Sz) :
      BenignReach s → BenignReach (updateWindowSize id sz s)
  | cascade {s} (vw vh : ℚ) :
      BenignReach s → BenignReach (arrangeWindows Arrangement.cascade vw vh s)
  | tile {s} (vw vh : ℚ) :
      BenignReach s → BenignReach (arrangeWindows Arrangement.tile vw vh s)

/-- The window `id` holds the strictly highest zIndex among live
windows. -/
def StrictTop (i : Nat) (s : MState) : Prop :=
  ∀ w ∈ s.windows, w.id = i →
    ∀ w' ∈ s.windows, w'.id ≠ i → w'.zIndex < w.zIndex

/-! ### General list helpers -/

theorem map_eq_self_of {α : Type} (l : List α) (f : α → α)
    (h : ∀ a ∈ l, f a = a) : l.map f = l := by
  induction l with
  | nil => rfl
  | cons a t ih =>
      simp only [List.map_cons, h a (by simp)]
      rw [ih fun b hb => h b (by simp [hb])]

theorem filter_length_of_nodup {α β : Type} [DecidableEq β]
    (key : α → β) (i : β) :
    ∀ l : List α, (l.map key).Nodup → i ∈ l.map key →
      (l.filter fun a => !(key a == i)).length + 1 = l.length := by
  intro l
  induction l with
  | nil => simp
  | cons a t ih =>
      intro hnd hmem
      simp only [List.map_cons, List.nodup_cons] at hnd
      by_cases hk : key a = i
      · simp [List.filter_cons, hk]
        intro b hb he
        exact hnd.1 (by rw [hk, ← he]; exact List.mem_map_of_mem key hb)
      · have hmem' : i ∈ t.map key := by
          rcases (List.mem_cons).mp hmem with h | h
          · exact absurd h.symm hk
          · exact h
        have := ih hnd.2 hmem'
        simp [List.filter_cons, hk]
        omega

/-! ### C4: minimize / maximize flag algebra -/

/-- An operation that is one of the two flag toggles. -/
def IsToggle : WMOp → Prop :=
  fun op => (∃ i, op = WMOp.mini i) ∨ (∃ i, op = WMOp.maxi i)

/-- Run a list of operations from an arbitrary state. -/
def runFrom (s : MState) (ops : List WMOp) : MState :=
  ops.foldl (fun s op => applyWMOp op s) s

/-- Parity of `minimizeWindow` toggles in `ops` targeting window id `i`. -/
def miniParity : List WMOp → Nat → Bool
  | [], _ => false
  | WMOp.mini j :: rest, i => xor (decide (i = j)) (miniParity rest i)
  | _ :: rest, i => miniParity rest i

/-- Parity of `maximizeWindow` toggles in `ops` targeting window id `i`. -/
def maxiParity : List WMOp → Nat → Bool
  | [], _ => false
  | WMOp.maxi j :: rest, i => xor (decide (i = j)) (maxiParity rest i)
  | _ :: rest, i => maxiParity rest i

theorem miniParity_mini (j : Nat) (ops : List WMOp) (i : Nat) :
    miniParity (WMOp.mini j :: ops) i = xor (decide (i = j)) (miniParity ops i) := rfl

theorem maxiParity_mini (j : Nat) (ops : List WMOp) (i : Nat) :
    maxiParity (WMOp.mini j :: ops) i = maxiParity ops i := rfl

theorem miniParity_maxi (j : Nat) (ops : List WMOp) (i : Nat) :
    miniParity (WMOp.maxi j :: ops) i = miniParity ops i := rfl

theorem maxiParity_maxi (j : Nat) (ops : List WMOp) (i : Nat) :
    maxiParity (WMOp.maxi j :: ops) i = xor (decide (i = j)) (maxiParity ops i) := rfl

/-- CLAIM C4 (counterexample).  The claim states `isMinimized` and
`isMaximized` are never both true under minimize/maximize toggles.  On
the code, minimizing the freshly created window 0 and then maximizing it
leaves both booleans true at once. -/
theorem c4_flag_exclusivity_cx :
    ((maximizeWindow 0 (minimizeWindow 0 (createWindow "A" 0 {} initState))).windows.map
        fun w => (w.isMinimized, w.isMaximized)) = [(true, true)] := by
  decide

/-- CLAIM C4 (amended).  `minimizeWindow` and `maximizeWindow` are
independent toggles: after any sequence of the two toggle operations,
each window's `isMinimized` equals its initial value xor the parity of
minimize toggles targeting its id, and likewise for `isMaximized`; all
other fields are untouched.  Consequently both flags can be true
simultaneously; such a window is then excluded from the rendered
surface (it shows in the taskbar), so the minimized interpretation
wins. -/
theorem c4_flag_exclusivity_amended :
    (∀ (s : MState) (ops : List WMOp), (∀ op ∈ ops, IsToggle op) →
      (runFrom s ops).windows = s.windows.map fun w =>
        { w with isMinimized := xor w.isMinimized (miniParity ops w.id)
                 isMaximized := xor w.isMaximized (maxiParity ops w.id) }) ∧
    (∀ (s : MState) (w : WindowState), w ∈ s.windows → w.isMinimized = true →
      w ∉ renderedWindows s ∧ w ∈ taskbarWindows s) := by
  constructor
  · intro s ops
    induction ops generalizing s with
    | nil =>
        intro _
        refine (map_eq_self_of _ _ fun w _ => ?_).symm
        simp [miniParity, maxiParity]
    | cons op rest ih =>
        intro hall
        have hop := hall op (by simp)
        have hrest : ∀ op ∈ rest, IsToggle op := fun o ho => hall o (by simp [ho])
        rcases hop with ⟨j, rfl⟩ | ⟨j, rfl⟩
        · have : runFrom s (WMOp.mini j :: rest) = runFrom (minimizeWindow j s) rest := rfl
          rw [this, ih (minimizeWindow j s) hrest]
          show ((s.windows.map _).map _) = _
          rw [List.map_map]
          refine List.map_congr_left fun w _ => ?_
          simp only [Function.comp_apply, miniParity_mini, maxiParity_mini]
          by_cases h : w.id = j
          · simp only [h, if_pos rfl, decide_eq_true_eq]
            cases hm : w.isMinimized <;>
              cases hp : miniParity rest w.id <;> simp [h, Bool.xor]
          · simp [h]
        · have : runFrom s (WMOp.maxi j :: rest) = runFrom (maximizeWindow j s) rest := rfl
          rw [this, ih (maximizeWindow j s) hrest]
          show ((s.windows.map _).map _) = _
          rw [List.map_map]
          refine List.map_congr_left fun w _ => ?_
          simp only [Function.comp_apply, miniParity_maxi, maxiParity_maxi]
          by_cases h : w.id = j
          · simp only [h, if_pos rfl, decide_eq_true_eq]
            cases hm : w.isMaximized <;>
              cases hp : maxiParity rest w.id <;> simp [h, Bool.xor]
          · simp [h]
  · intro s w hw hmin
    constructor
    · intro hr
      have := (List.mem_filter.mp hr).2
      simp [hmin] at this
    · exact List.mem_filter.mpr ⟨hw, by simp [hmin]⟩

/-- Witness for C4 (amended), at a concrete two-toggle trace on a
one-window state. -/
theorem c4_flag_exclusivity_witness :
    (runFrom (createWindow "A" 0 {} initState) [WMOp.mini 0, WMOp.maxi 0]).windows =
      (createWindow "A" 0 {} initState).windows.map fun w =>
        { w with isMinimized := xor w.isMinimized (miniParity [WMOp.mini 0, WMOp.maxi 0] w.id)
                 isMaximized := xor w.isMaximized (maxiParity [WMOp.mini 0, WMOp.maxi 0] w.id) } :=
  c4_flag_exclusivity_amended.1 (createWindow "A" 0 {} initState)
    [WMOp.mini 0, WMOp.maxi 0]
    (by intro op hop
        rcases List.mem_cons.mp hop with rfl | hop
        · exact Or.inl ⟨0, rfl⟩
        rcases List.mem_cons.mp hop with rfl | hop
        · exact Or.inr ⟨0, rfl⟩
        cases hop)

/-! ### C9: operations on a non-existent id -/

theorem closeWindow_not_mem {s : MState} {id : Nat}
    (h : id ∉ s.windows.map (·.id)) : closeWindow id s = s := by
  cases s with
  | mk ws z n =>
      simp only [closeWindow]
      congr 1
      refine List.filter_eq_self.mpr fun w hw => ?_
      have : w.id ≠ id := fun he => h (he ▸ List.mem_map_of_mem _ hw)
      simp [this]

theorem minimizeWindow_not_mem {s : MState} {id : Nat}
    (h : id ∉ s.windows.map (·.id)) : minimizeWindow id s = s := by
  cases s with
  | mk ws z n =>
      simp only [minimizeWindow]
      congr 1
      refine map_eq_self_of _ _ fun w hw => ?_
      have : w.id ≠ id := fun he => h (he ▸ List.mem_map_of_mem _ hw)
      simp [this]

theorem maximizeWindow_not_mem {s : MState} {id : Nat}
    (h : id ∉ s.windows.map (·.id)) : maximizeWindow id s = s := by
  cases s with
  | mk ws z n =>
      simp only [maximizeWindow]
      congr 1
      refine map_eq_self_of _ _ fun w hw => ?_
      have : w.id ≠ id := fun he => h (he ▸ List.mem_map_of_mem _ hw)
      simp [this]

theorem focusWindow_not_mem {s : MState} {id : Nat}
    (h : id ∉ s.windows.map (·.id)) : (focusWindow id s).windows = s.windows := by
  simp only [focusWindow]
  refine map_eq_self_of _ _ fun w hw => ?_
  have : w.id ≠ id := fun he => h (he ▸ List.mem_map_of_mem _ hw)
  simp [this]

theorem updateWindowPosition_not_mem {s : MState} {id : Nat} {p : Pt}
    (h : id ∉ s.windows.map (·.id)) : updateWindowPosition id p s = s := by
  cases s with
  | mk ws z n =>
      simp only [updateWindowPosition]
      congr 1
      refine map_eq_self_of _ _ fun w hw => ?_
      have : w.id ≠ id := fun he => h (he ▸ List.mem_map_of_mem _ hw)
      simp [this]

theorem updateWindowSize_not_mem {s : MState} {id : Nat} {sz : Sz}
    (h : id ∉ s.windows.map (·.id)) : updateWindowSize id sz s = s := by
  cases s with
  | mk ws z n =>
      simp only [updateWindowSize]
      congr 1
      refine map_eq_self_of _ _ fun w hw => ?_
      have : w.id ≠ id := fun he => h (he ▸ List.mem_map_of_mem _ hw)
      simp [this]

theorem closeWindow_removes_id {s : MState} {id : Nat} :
    id ∉ (closeWindow id s).windows.map (·.id) := by
  intro h
  rcases List.mem_map.mp h with ⟨w, hw, hwe⟩
  have := (List.mem_filter.mp hw).2
  simp [hwe] at this

/-- CLAIM C9 (confirmed).  Every manager operation referencing an id not
present in the collection is a silent no-op on the window collection
(`focusWindow` still advances the counter, but the collection is
unchanged); when the id exists (ids being distinct), `closeWindow`
removes exactly one entry and a second `closeWindow` with the same id is
a no-op. -/
theorem c9_unknown_id_noop :
    (∀ (s : MState) (id : Nat), id ∉ s.windows.map (·.id) →
      closeWindow id s = s ∧
      minimizeWindow id s = s ∧
      maximizeWindow id s = s ∧
      (focusWindow id s).windows = s.windows ∧
      (∀ p, updateWindowPosition id p s = s) ∧
      (∀ sz, updateWindowSize id sz s = s)) ∧
    (∀ (s : MState) (id : Nat), IdsDistinct s → id ∈ s.windows.map (·.id) →
      (closeWindow id s).windows.length + 1 = s.windows.length ∧
      closeWindow id (closeWindow id s) = closeWindow id s) := by
  constructor
  · intro s id h
    exact ⟨closeWindow_not_mem h, minimizeWindow_not_mem h, maximizeWindow_not_mem h,
      focusWindow_not_mem h, fun _ => updateWindowPosition_not_mem h,
      fun _ => updateWindowSize_not_mem h⟩
  · intro s id hnd hmem
    have hnd' : (s.windows.map fun w => w.id).Nodup := hnd
    refine ⟨?_, ?_⟩
    · show (s.windows.filter fun w => !(w.id == id)).length + 1 = s.windows.length
      exact filter_length_of_nodup (fun w => w.id) id s.windows hnd' hmem
    · exact closeWindow_not_mem closeWindow_removes_id

/-- Witness for C9 at a concrete state: one window with id 0; id 5 is
absent; closing id 0 removes exactly one entry. -/
theorem c9_unknown_id_noop_witness :
    closeWindow 5 (createWindow "A" 0 {} initState) = createWindow "A" 0 {} initState ∧
    (closeWindow 0 (createWindow "A" 0 {} initState)).windows.length + 1 =
      (createWindow "A" 0 {} initState).windows.length :=
  ⟨(c9_unknown_id_noop.1 (createWindow "A" 0 {} initState) 5 (by decide)).1,
   (c9_unknown_id_noop.2 (createWindow "A" 0 {} initState) 0
      (by unfold IdsDistinct; decide) (by decide)).1⟩

/-! ### C10: the `...options` spread overrides every assigned field -/

/-- Options deliberately duplicating the id and zIndex of the existing
window 0 (which carries id 0 and zIndex 1). -/
def dupOptions : WindowOptions := { id := some 0, zIndex := some 1 }

/-- CLAIM C10 (confirmed).  Every field present in `options` — including
`id`, `zIndex`, `isMinimized` and `isMaximized` — overrides the
manager-assigned value of the created window, because the `...options`
spread is applied last; consequently `createWindow` with adversarial
options produces a window whose id and zIndex duplicate an existing
window's, bypassing fresh allocation. -/
theorem c10_options_override :
    (∀ (s : MState) (t : String) (c : Nat) (o : WindowOptions),
      (∀ v, o.id = some v →
        ((createWindow t c o s).windows.map (·.id)).getLast? = some v) ∧
      (∀ v, o.zIndex = some v →
        ((createWindow t c o s).windows.map (·.zIndex)).getLast? = some v) ∧
      (∀ b, o.isMinimized = some b →
        ((createWindow t c o s).windows.map (·.isMinimized)).getLast? = some b) ∧
      (∀ b, o.isMaximized = some b →
        ((createWindow t c o s).windows.map (·.isMaximized)).getLast? = some b) ∧
      (∀ p, o.position = some p →
        ((createWindow t c o s).windows.map (·.position)).getLast? = some p) ∧
      (∀ z, o.size = some z →
        ((createWindow t c o s).windows.map (·.size)).getLast? = some z) ∧
      (∀ t2, o.title = some t2 →
        ((createWindow t c o s).windows.map (·.title)).getLast? = some t2)) ∧
    ((createWindow "B" 0 dupOptions (createWindow "A" 0 {} initState)).windows.map (·.id)
        = [0, 0] ∧
     (createWindow "B" 0 dupOptions (createWindow "A" 0 {} initState)).windows.map (·.zIndex)
        = [1, 1] ∧
     ¬ IdsDistinct (createWindow "B" 0 dupOptions (createWindow "A" 0 {} initState)) ∧
     ¬ ZDistinct (createWindow "B" 0 dupOptions (createWindow "A" 0 {} initState))) := by
  constructor
  · intro s t c o
    refine ⟨fun v hv => ?_, fun v hv => ?_, fun b hv => ?_, fun b hv => ?_,
      fun p hv => ?_, fun z hv => ?_, fun t2 hv => ?_⟩ <;>
      simp [createWindow, mkWindow, hv]
  · refine ⟨by decide, by decide, ?_, ?_⟩
    · unfold IdsDistinct; decide
    · unfold ZDistinct; decide

/-- Witness for C10, discharging the option-field hypothesis at the
concrete duplicate-options creation and reading back the overridden
id. -/
theorem c10_options_override_witness :
    ((createWindow "B" 0 dupOptions (createWindow "A" 0 {} initState)).windows.map
        (·.id)).getLast? = some 0 :=
  ((c10_options_override.1 (createWindow "A" 0 {} initState) "B" 0 dupOptions).1) 0 rfl

/-! ### C6: drag clamping -/

/-- CLAIM C6 (counterexample).  For a window wider than the viewport
(width 2000, viewport 1000) the clamp `max 0 (min v (vw − width))`
yields `x = 0`, which violates the claimed bound
`x ≤ viewportWidth − windowWidth = −1000`. -/
theorem c6_drag_clamp_cx :
    (dragMove ⟨0, 0⟩ ⟨2000, 400⟩ 1000 800 ⟨500, 300⟩).x = 0 ∧
    ¬ (dragMove ⟨0, 0⟩ ⟨2000, 400⟩ 1000 800 ⟨500, 300⟩).x ≤ 1000 - 2000 := by
  constructor
  · norm_num [dragMove]
  · norm_num [dragMove]

/-- CLAIM C6 (amended).  For every drag sequence on a window that fits
in the viewport (`width ≤ vw`, `height ≤ vh`), every intermediate
stored position — which is by the same assignment the payload of the
`onMove` notification of that step — satisfies
`0 ≤ x ≤ vw − width` and `0 ≤ y ≤ vh − height`.  For an oversized
window the corner instead clamps to 0, exceeding the stated negative
upper bound. -/
theorem c6_drag_clamp_amended
    (dragStart : Pt) (size : Sz) (vw vh : ℚ) (mice : List Pt)
    (hw : size.width ≤ vw) (hh : size.height ≤ vh) :
    ∀ p ∈ dragTrace dragStart size vw vh mice,
      0 ≤ p.x ∧ p.x ≤ vw - size.width ∧ 0 ≤ p.y ∧ p.y ≤ vh - size.height := by
  intro p hp
  rcases List.mem_map.mp hp with ⟨mouse, _, rfl⟩
  refine ⟨le_max_left 0 _, ?_, le_max_left 0 _, ?_⟩
  · exact max_le (by linarith) (min_le_right _ _)
  · exact max_le (by linarith) (min_le_right _ _)

/-- Witness for C6 (amended) at a concrete one-event drag. -/
theorem c6_drag_clamp_witness :
    0 ≤ (dragMove ⟨0, 0⟩ ⟨600, 400⟩ 1000 800 ⟨500, 300⟩).x ∧
    (dragMove ⟨0, 0⟩ ⟨600, 400⟩ 1000 800 ⟨500, 300⟩).x ≤ 1000 - (600 : ℚ) ∧
    0 ≤ (dragMove ⟨0, 0⟩ ⟨600, 400⟩ 1000 800 ⟨500, 300⟩).y ∧
    (dragMove ⟨0, 0⟩ ⟨600, 400⟩ 1000 800 ⟨500, 300⟩).y ≤ 800 - (400 : ℚ) :=
  c6_drag_clamp_amended ⟨0, 0⟩ ⟨600, 400⟩ 1000 800 [⟨500, 300⟩]
    (by norm_num) (by norm_num)
    (dragMove ⟨0, 0⟩ ⟨600, 400⟩ 1000 800 ⟨500, 300⟩)
    (List.mem_map_of_mem (dragMove ⟨0, 0⟩ ⟨600, 400⟩ 1000 800)
      (List.mem_singleton.mpr rfl))

/-! ### C3: resizing from a top/left handle -/

/-- CLAIM C3 (counterexample).  Resizing from the 'top' handle with the
height already at `minSize.height`: a downward pointer movement of 50
leaves the height clamped at 200 but still moves `position.y` from 100
to 150, so the bottom edge moves from 300 to 350 — the step does NOT
preserve the opposite edge. -/
theorem c3_resize_opposite_edge_cx :
    (resizeMove ⟨0, 100, 400, 200⟩ Dir.top ⟨300, 200⟩ ⟨10000, 10000⟩
        ⟨0, 100⟩ ⟨0, 150⟩).1.height = 200 ∧
    (resizeMove ⟨0, 100, 400, 200⟩ Dir.top ⟨300, 200⟩ ⟨10000, 10000⟩
        ⟨0, 100⟩ ⟨0, 150⟩).2.y = 150 ∧
    (resizeMove ⟨0, 100, 400, 200⟩ Dir.top ⟨300, 200⟩ ⟨10000, 10000⟩
        ⟨0, 100⟩ ⟨0, 150⟩).2.y +
      (resizeMove ⟨0, 100, 400, 200⟩ Dir.top ⟨300, 200⟩ ⟨10000, 10000⟩
        ⟨0, 100⟩ ⟨0, 150⟩).1.height ≠ (100 : ℚ) + 200 := by
  refine ⟨?_, ?_, ?_⟩ <;>
    norm_num [resizeMove, Dir.hasTop, Dir.hasBottom, Dir.hasLeft, Dir.hasRight]

/-- CLAIM C3 (amended).  As long as the clamped dimension stays strictly
inside `[minSize, maxSize]`, a step on the 'top' handle sets
`height = startHeight − Δy` and `y = startY + Δy`, pinning
`y + height` to the mouse-down anchor line `startY + startHeight`
(which is the original bottom edge exactly when the drag anchor
`resizeStart.y` coincides with the window's top edge); symmetrically a
'left' step pins `x + width`, and a 'top-left' step pins both.  When
the min/max clamp engages, the position keeps tracking the pointer and
the opposite edge moves (see the counterexample). -/
theorem c3_resize_opposite_edge_amended
    (rs : ResizeStart) (minSize maxSize : Sz) (pos mouse : Pt) :
    ((minSize.height ≤ rs.height - (mouse.y - rs.y) →
      rs.height - (mouse.y - rs.y) ≤ maxSize.height →
      (resizeMove rs Dir.top minSize maxSize pos mouse).1.height
          = rs.height - (mouse.y - rs.y) ∧
      (resizeMove rs Dir.top minSize maxSize pos mouse).2.y
          = rs.y + (mouse.y - rs.y) ∧
      (resizeMove rs Dir.top minSize maxSize pos mouse).2.y +
        (resizeMove rs Dir.top minSize maxSize pos mouse).1.height
          = rs.y + rs.height ∧
      (resizeMove rs Dir.top minSize maxSize pos mouse).1.width = rs.width ∧
      (resizeMove rs Dir.top minSize maxSize pos mouse).2.x = pos.x)) ∧
    ((minSize.width ≤ rs.width - (mouse.x - rs.x) →
      rs.width - (mouse.x - rs.x) ≤ maxSize.width →
      (resizeMove rs Dir.left minSize maxSize pos mouse).1.width
          = rs.width - (mouse.x - rs.x) ∧
      (resizeMove rs Dir.left minSize maxSize pos mouse).2.x
          = rs.x + (mouse.x - rs.x) ∧
      (resizeMove rs Dir.left minSize maxSize pos mouse).2.x +
        (resizeMove rs Dir.left minSize maxSize pos mouse).1.width
          = rs.x + rs.width ∧
      (resizeMove rs Dir.left minSize maxSize pos mouse).1.height = rs.height ∧
      (resizeMove rs Dir.left minSize maxSize pos mouse).2.y = pos.y)) ∧
    ((minSize.height ≤ rs.height - (mouse.y - rs.y) →
      rs.height - (mouse.y - rs.y) ≤ maxSize.height →
      minSize.width ≤ rs.width - (mouse.x - rs.x) →
      rs.width - (mouse.x - rs.x) ≤ maxSize.width →
      (resizeMove rs Dir.topLeft minSize maxSize pos mouse).2.x +
        (resizeMove rs Dir.topLeft minSize maxSize pos mouse).1.width
          = rs.x + rs.width ∧
      (resizeMove rs Dir.topLeft minSize maxSize pos mouse).2.y +
        (resizeMove rs Dir.topLeft minSize maxSize pos mouse).1.height
          = rs.y + rs.height)) := by
  refine ⟨fun h1 h2 => ?_, fun h1 h2 => ?_, fun h1 h2 h3 h4 => ?_⟩
  · simp only [resizeMove, Dir.hasTop, Dir.hasBottom, Dir.hasLeft, Dir.hasRight,
      if_true, if_false, Bool.false_eq_true]
    rw [min_eq_right h2, max_eq_right h1]
    refine ⟨by trivial, by trivial, by ring, by trivial, by trivial⟩
  · simp only [resizeMove, Dir.hasTop, Dir.hasBottom, Dir.hasLeft, Dir.hasRight,
      if_true, if_false, Bool.false_eq_true]
    rw [min_eq_right h2, max_eq_right h1]
    refine ⟨by trivial, by trivial, by ring, by trivial, by trivial⟩
  · simp only [resizeMove, Dir.hasTop, Dir.hasBottom, Dir.hasLeft, Dir.hasRight,
      if_true, if_false, Bool.false_eq_true]
    rw [min_eq_right h2, max_eq_right h1, min_eq_right h4, max_eq_right h3]
    exact ⟨by ring, by ring⟩

/-- Witness for C3 (amended) at a concrete unclamped top-handle step:
start height 400, pointer moved down 50, bottom edge pinned. -/
theorem c3_resize_opposite_edge_witness :
    (resizeMove ⟨0, 100, 400, 400⟩ Dir.top ⟨300, 200⟩ ⟨10000, 10000⟩
        ⟨0, 100⟩ ⟨0, 150⟩).2.y +
      (resizeMove ⟨0, 100, 400, 400⟩ Dir.top ⟨300, 200⟩ ⟨10000, 10000⟩
        ⟨0, 100⟩ ⟨0, 150⟩).1.height = (100 : ℚ) + 400 :=
  ((c3_resize_opposite_edge_amended ⟨0, 100, 400, 400⟩ ⟨300, 200⟩ ⟨10000, 10000⟩
      ⟨0, 100⟩ ⟨0, 150⟩).1 (by norm_num) (by norm_num)).2.2.1

/-! ### Helpers for index-based maps (`prev.map((window, index) => ...)`) -/

theorem enum_map_keep {α γ : Type} (g : Nat × α → α) (f : α → γ)
    (hfg : ∀ i a, f (g (i, a)) = f a) :
    ∀ (l : List α) (n : Nat),
      ((List.enumFrom n l).map g).map f = l.map f := by
  intro l
  induction l with
  | nil => intro n; rfl
  | cons a t ih =>
      intro n
      simp only [List.enumFrom, List.map_cons, hfg, ih]

theorem enum_map_eval {α β γ : Type} (g : Nat × α → β) (f : β → γ) (h : Nat → γ)
    (hfg : ∀ i a, f (g (i, a)) = h i) :
    ∀ (l : List α) (n : Nat),
      ((List.enumFrom n l).map g).map f = (List.range' n l.length).map h := by
  intro l
  induction l with
  | nil => intro n; rfl
  | cons a t ih =>
      intro n
      simp only [List.enumFrom, List.map_cons, List.length_cons, List.range'_succ,
        hfg, ih]

/-! ### C5: `arrangeWindows` and minimized windows -/

/-- Concrete two-window state: window 0 (`A`) visible, window 1 (`B`)
minimized at stored position (500, 500). -/
def sC5 : MState :=
  minimizeWindow 1
    (createWindow "B" 0 { position := some ⟨500, 500⟩ }
      (createWindow "A" 0 {} initState))

/-- CLAIM C5 (counterexample).  The claim says every `arrangeWindows`
mode leaves minimized windows' stored geometry unchanged.  On the code,
`cascade` maps over ALL windows: the minimized window 1 of `sC5` moves
from stored position (500, 500) to the cascade slot (80, 80). -/
theorem c5_arrange_minimized_cx :
    (sC5.windows.map (·.isMinimized)) = [false, true] ∧
    (sC5.windows.map (·.position.x)) = [100, 500] ∧
    ((arrangeWindows Arrangement.cascade 0 0 sC5).windows.map (·.position.x))
      = [50, 80] ∧
    ((500 : ℚ) ≠ 80) := by
  refine ⟨by decide, ?_, ?_, by norm_num⟩
  · norm_num [sC5, minimizeWindow, createWindow, mkWindow, initState]
  · norm_num [sC5, arrangeWindows, minimizeWindow, createWindow, mkWindow,
      initState, List.enum, List.enumFrom]

/-- CLAIM C5 (amended).  In every arrangement mode, window identity,
content and minimized flags are preserved, minimized windows stay off
the rendered surface and in the taskbar, and `tile` leaves minimized
windows entirely unchanged; but `cascade` (and `stack`) overwrite the
stored position/size/maximized flag of EVERY window by its list index,
minimized windows included. -/
theorem c5_arrange_minimized_amended :
    (∀ (mode : Arrangement) (vw vh : ℚ) (s : MState),
      ((arrangeWindows mode vw vh s).windows.map fun w =>
          (w.id, w.title, w.component, w.props, w.isMinimized))
        = s.windows.map fun w => (w.id, w.title, w.component, w.props, w.isMinimized)) ∧
    (∀ (vw vh : ℚ) (s : MState) (w : WindowState),
      w ∈ s.windows → w.isMinimized = true →
      w ∈ (arrangeWindows Arrangement.tile vw vh s).windows) ∧
    (∀ (vw vh : ℚ) (s : MState),
      ((arrangeWindows Arrangement.cascade vw vh s).windows.map (·.position))
          = (List.range s.windows.length).map
              (fun i : Nat => (⟨50 + (i : ℚ) * 30, 50 + (i : ℚ) * 30⟩ : Pt)) ∧
      ((arrangeWindows Arrangement.cascade vw vh s).windows.map (·.size))
          = (List.range s.windows.length).map (fun _ : Nat => (⟨600, 400⟩ : Sz)) ∧
      ((arrangeWindows Arrangement.cascade vw vh s).windows.map (·.isMaximized))
          = (List.range s.windows.length).map (fun _ : Nat => false) ∧
      ((arrangeWindows Arrangement.stack vw vh s).windows.map (·.position))
          = (List.range s.windows.length).map (fun _ : Nat => (⟨100, 100⟩ : Pt)) ∧
      ((arrangeWindows Arrangement.stack vw vh s).windows.map (·.size))
          = (List.range s.windows.length).map (fun _ : Nat => (⟨800, 600⟩ : Sz)) ∧
      ((arrangeWindows Arrangement.stack vw vh s).windows.map (·.isMaximized))
          = (List.range s.windows.length).map (fun _ : Nat => false)) ∧
    (∀ (s : MState) (w : WindowState),
      w ∈ s.windows → w.isMinimized = true →
      w ∉ renderedWindows s ∧ w ∈ taskbarWindows s) := by
  refine ⟨?_, ?_, ?_, ?_⟩
  · intro mode vw vh s
    cases mode with
    | cascade =>
        show ((s.windows.enum.map _).map _) = _
        exact enum_map_keep _ _ (fun i a => rfl) s.windows 0
    | stack =>
        show ((s.windows.enum.map _).map _) = _
        exact enum_map_keep _ _ (fun i a => rfl) s.windows 0
    | tile =>
        show ((s.windows.map _).map _) = _
        rw [List.map_map]
        refine List.map_congr_left fun w _ => ?_
        by_cases h : w.isMinimized <;> simp [h]
  · intro vw vh s w hw hmin
    show w ∈ s.windows.map _
    refine List.mem_map.mpr ⟨w, hw, ?_⟩
    simp [hmin]
  · intro vw vh s
    refine ⟨?_, ?_, ?_, ?_, ?_, ?_⟩ <;>
      · show ((s.windows.enum.map _).map _) = _
        rw [List.range_eq_range']
        refine enum_map_eval _ _ _ ?_ s.windows 0
        intro i a
        rfl
  · intro s w hw hmin
    constructor
    · intro hr
      have := (List.mem_filter.mp hr).2
      simp [hmin] at this
    · exact List.mem_filter.mpr ⟨hw, by simp [hmin]⟩

/-- Witness for C5 (amended): the minimized window of `sC5` survives
tiling untouched. -/
theorem c5_arrange_minimized_witness :
    sC5.windows.getLast (by decide) ∈
      (arrangeWindows Arrangement.tile 1280 800 sC5).windows :=
  c5_arrange_minimized_amended.2.1 1280 800 sC5 (sC5.windows.getLast (by decide))
    (List.getLast_mem _) (by decide)

/-! ### C8: `applyLayoutPreset` -/

theorem enum_map_snd_comp {α β : Type} (g : α → β) (l : List α) :
    l.enum.map (fun p => g p.2) = l.map g := by
  calc l.enum.map (fun p => g p.2)
      = (l.enum.map Prod.snd).map g := by rw [List.map_map]; rfl
    _ = l.map g := by rw [List.enum_map_snd]

theorem presetCreate_length (ds : Pt) (z : Nat) :
    ∀ (l : List (Nat × WindowOptions)) (n0 : Nat),
      (presetCreate ds z l n0).length = l.length := by
  intro l
  induction l with
  | nil => intro n0; rfl
  | cons p t ih =>
      intro n0
      cases p with
      | mk idx o => simp [presetCreate, ih]

theorem presetCreate_zIndex (ds : Pt) (z : Nat) :
    ∀ (l : List (Nat × WindowOptions)) (n0 : Nat),
      (∀ p ∈ l, p.2.zIndex = none) →
      ∀ w ∈ presetCreate ds z l n0, w.zIndex = z := by
  intro l
  induction l with
  | nil => intro n0 _ w hw; cases hw
  | cons p t ih =>
      intro n0 h w hw
      cases p with
      | mk idx o =>
          rcases List.mem_cons.mp hw with rfl | hw
          · have hz : o.zIndex = none := h (idx, o) (by simp)
            simp [mkWindow, hz]
          · exact ih (n0 + 1) (fun q hq => h q (by simp [hq])) w hw

theorem presetCreate_ids (ds : Pt) (z : Nat) :
    ∀ (l : List (Nat × WindowOptions)) (n0 : Nat),
      (∀ p ∈ l, p.2.id = none) →
      (presetCreate ds z l n0).map (·.id) = List.range' n0 l.length := by
  intro l
  induction l with
  | nil => intro n0 _; rfl
  | cons p t ih =>
      intro n0 h
      cases p with
      | mk idx o =>
          have hid : o.id = none := h (idx, o) (by simp)
          simp only [presetCreate, List.map_cons, List.length_cons, List.range'_succ]
          rw [ih (n0 + 1) (fun q hq => h q (by simp [hq]))]
          simp [mkWindow, hid]

theorem presetCreate_positions (ds : Pt) (z : Nat) :
    ∀ (l : List (Nat × WindowOptions)) (n0 : Nat),
      (presetCreate ds z l n0).map (·.position)
        = l.map fun p => p.2.position.getD ds := by
  intro l
  induction l with
  | nil => intro n0; rfl
  | cons p t ih =>
      intro n0
      cases p with
      | mk idx o => simp [presetCreate, mkWindow, ih]

theorem presetCreate_sizes (ds : Pt) (z : Nat) :
    ∀ (l : List (Nat × WindowOptions)) (n0 : Nat),
      (presetCreate ds z l n0).map (·.size)
        = l.map fun p => p.2.size.getD ⟨600, 400⟩ := by
  intro l
  induction l with
  | nil => intro n0; rfl
  | cons p t ih =>
      intro n0
      cases p with
      | mk idx o => simp [presetCreate, mkWindow, ih]

theorem presetCreate_titles (ds : Pt) (z : Nat) :
    ∀ (l : List (Nat × WindowOptions)) (n0 : Nat),
      (presetCreate ds z l n0).map (·.title)
        = l.map fun p => presetTitle p.1 p.2 := by
  intro l
  induction l with
  | nil => intro n0; rfl
  | cons p t ih =>
      intro n0
      cases p with
      | mk idx o =>
          simp only [presetCreate, List.map_cons, ih]
          cases ho : o.title <;> simp [mkWindow, presetTitle, ho]

/-- A two-entry preset (no entry overrides id or zIndex, like all three
presets in the source). -/
def preC8 : List WindowOptions :=
  [{ position := some ⟨0, 0⟩, size := some ⟨100, 100⟩ },
   { position := some ⟨10, 10⟩ }]

/-- CLAIM C8 (counterexample).  Applying a two-entry preset to a state
holding one window (zIndex counter at 2) yields two windows BOTH with
zIndex 2 — not "a fresh zIndex in list order": the scheduled
`createWindow` calls all read the stale captured counter. -/
theorem c8_preset_replace_cx :
    ((applyLayoutPreset preC8 (createWindow "A" 0 {} initState)).windows.map (·.zIndex))
      = [2, 2] ∧
    ¬ ZDistinct (applyLayoutPreset preC8 (createWindow "A" 0 {} initState)) := by
  refine ⟨by decide, ?_⟩
  unfold ZDistinct
  decide

/-- CLAIM C8 (amended).  `applyLayoutPreset(P)` with `n` entries (none
overriding id/zIndex, as in all presets of the source) replaces the
window set: exactly `n` windows remain, each with a fresh id (ascending
from the generator, so none carried over from before), title, position
and size matching its preset entry with defaults for unset fields — but
every created window receives the SAME zIndex, namely the pre-call
counter value captured by the scheduled closure; the counter itself is
advanced by `n`. -/
theorem c8_preset_replace_amended (s : MState) (pre : List WindowOptions)
    (h : ∀ o ∈ pre, o.id = none ∧ o.zIndex = none) :
    (applyLayoutPreset pre s).windows.length = pre.length ∧
    ((applyLayoutPreset pre s).windows.map (·.id)) = List.range' s.nextId pre.length ∧
    (∀ w' ∈ (applyLayoutPreset pre s).windows, IdBounded s →
      ∀ w ∈ s.windows, w.id ≠ w'.id) ∧
    (∀ w' ∈ (applyLayoutPreset pre s).windows, w'.zIndex = s.nextZIndex) ∧
    ((applyLayoutPreset pre s).windows.map (·.position))
      = pre.map (fun o => o.position.getD
          ⟨100 + (s.windows.length : ℚ) * 30, 100 + (s.windows.length : ℚ) * 30⟩) ∧
    ((applyLayoutPreset pre s).windows.map (·.size))
      = pre.map (fun o => o.size.getD ⟨600, 400⟩) ∧
    ((applyLayoutPreset pre s).windows.map (·.title))
      = pre.enum.map (fun p => presetTitle p.1 p.2) ∧
    (applyLayoutPreset pre s).nextZIndex = s.nextZIndex + pre.length := by
  have hsnd : ∀ p ∈ pre.enum, p.2 ∈ pre := by
    intro p hp
    have := List.mem_map_of_mem Prod.snd hp
    rwa [List.enum_map_snd] at this
  have hlen : pre.enum.length = pre.length := List.enum_length
  refine ⟨?_, ?_, ?_, ?_, ?_, ?_, ?_, rfl⟩
  · show (presetCreate _ _ _ _).length = _
    rw [presetCreate_length, hlen]
  · show (presetCreate _ _ _ _).map (·.id) = _
    rw [presetCreate_ids _ _ _ _ (fun q hq => (h q.2 (hsnd q hq)).1), hlen]
  · intro w' hw' hb w hw
    have hidrange := List.mem_map_of_mem (·.id)
      (show w' ∈ presetCreate _ _ pre.enum s.nextId from hw')
    rw [presetCreate_ids _ _ _ _ (fun q hq => (h q.2 (hsnd q hq)).1), hlen] at hidrange
    replace hidrange : w'.id ∈ List.range' s.nextId pre.length := hidrange
    have hge := (List.mem_range'_1.mp hidrange).1
    have hlt := hb w hw
    omega
  · intro w' hw'
    exact presetCreate_zIndex _ _ pre.enum s.nextId
      (fun q hq => (h q.2 (hsnd q hq)).2) w' hw'
  · show (presetCreate _ _ _ _).map (·.position) = _
    rw [presetCreate_positions]
    exact enum_map_snd_comp
      (fun o : WindowOptions => o.position.getD
        ⟨100 + (s.windows.length : ℚ) * 30, 100 + (s.windows.length : ℚ) * 30⟩) pre
  · show (presetCreate _ _ _ _).map (·.size) = _
    rw [presetCreate_sizes]
    exact enum_map_snd_comp (fun o : WindowOptions => o.size.getD ⟨600, 400⟩) pre
  · show (presetCreate _ _ _ _).map (·.title) = _
    rw [presetCreate_titles]

/-- Witness for C8 (amended): the two-entry preset applied to a
one-window state yields ids 1, 2 in list order. -/
theorem c8_preset_replace_witness :
    ((applyLayoutPreset preC8 (createWindow "A" 0 {} initState)).windows.map (·.id))
      = List.range' 1 2 :=
  (c8_preset_replace_amended (createWindow "A" 0 {} initState) preC8
    (by decide)).2.1

/-! ### C2: rendered geometry vs manager-stored geometry -/

/-- One-window state: window 0 at stored position (100, 100). -/
def sC2 : MState := createWindow "A" 0 {} initState

/-- The same state after `arrangeWindows('cascade')`: stored position is
now (50, 50). -/
def sC2' : MState := arrangeWindows Arrangement.cascade 1280 800 sC2

/-- CLAIM C2 (counterexample).  Mount window 0 (internal geometry seeded
at (100, 100)), then let the manager run `arrangeWindows('cascade')`,
moving the STORED position to (50, 50).  The still-mounted
`ResizableWindow` keeps rendering its internal position (100, 100),
because the store reaches it only through the `initialPosition` prop,
which merely seeds `useState`: rendered geometry ≠ stored geometry. -/
theorem c2_rendered_geometry_cx :
    ((reconcile (reconcile [] sC2) sC2').lookup 0).map (fun rw => rw.position.x)
      = some 100 ∧
    (sC2'.windows.map (·.position.x)) = [50] ∧
    (100 : ℚ) ≠ 50 := by
  refine ⟨?_, ?_, by norm_num⟩
  · norm_num [sC2, sC2', reconcile, arrangeWindows, createWindow, mkWindow,
      initState, List.enum, List.enumFrom, List.lookup, List.filter]
  · norm_num [sC2, sC2', arrangeWindows, createWindow, mkWindow, initState,
      List.enum, List.enumFrom]

/-- CLAIM C2 (amended).  After a bulk manager-side geometry update
(`arrangeWindows` in any mode), an already-mounted, still-visible window
keeps its previous internal geometry — the manager's new stored
position/size does NOT reach the rendered output, since `position` and
`size` enter `ResizableWindow` only as `initialPosition`/`initialSize`
seeds of `useState`.  Only a freshly mounted window (first render,
restore from minimized, or the fresh windows of `applyLayoutPreset`)
renders exactly the manager-stored geometry. -/
theorem c2_rendered_geometry_amended :
    (∀ (m : List (Nat × RWState)) (mode : Arrangement) (vw vh : ℚ) (s : MState)
        (id : Nat) (rw : RWState),
      m.lookup id = some rw →
      ∀ w ∈ (arrangeWindows mode vw vh s).windows, w.id = id →
        w.isMinimized = false →
        (id, rw) ∈ reconcile m (arrangeWindows mode vw vh s)) ∧
    (∀ (m : List (Nat × RWState)) (s : MState), ∀ w ∈ s.windows,
      m.lookup w.id = none → w.isMinimized = false →
      (w.id, (⟨w.position, w.size⟩ : RWState)) ∈ reconcile m s) := by
  constructor
  · intro m mode vw vh s id rw hl w hw hid hmin
    refine List.mem_map.mpr ⟨w, List.mem_filter.mpr ⟨hw, by simp [hmin]⟩, ?_⟩
    rw [hid, hl]
    rfl
  · intro m s w hw hl hmin
    refine List.mem_map.mpr ⟨w, List.mem_filter.mpr ⟨hw, by simp [hmin]⟩, ?_⟩
    rw [hl]
    rfl

/-- Witness for C2 (amended): a freshly mounted window renders the
manager-stored geometry. -/
theorem c2_rendered_geometry_witness :
    ((sC2.windows.getLast (by decide)).id,
      (⟨(sC2.windows.getLast (by decide)).position,
        (sC2.windows.getLast (by decide)).size⟩ : RWState)) ∈ reconcile [] sC2 :=
  c2_rendered_geometry_amended.2 [] sC2 (sC2.windows.getLast (by decide))
    (List.getLast_mem _) rfl (by decide)

/-! ### C7: the tile arrangement -/

/-- The visible (non-minimized) windows, in list order — the
`visibleWindows` of `arrangeWindows`. -/
def visList (s : MState) : List WindowState :=
  s.windows.filter fun w => !w.isMinimized

/-- Grid columns `cols = Math.ceil(Math.sqrt(visibleWindows.length))`. -/
def tileCols (s : MState) : Nat := ceilSqrt (visList s).length

/-- Grid rows `rows = Math.ceil(visibleWindows.length / cols)`. -/
def tileRows (s : MState) : Nat := ceilDiv (visList s).length (tileCols s)

/-- Tile cell width `windowWidth = (innerWidth − 100) / cols`. -/
def tileCW (s : MState) (vw : ℚ) : ℚ := (vw - 100) / (tileCols s : ℚ)

/-- Tile cell height `windowHeight = (innerHeight − 150) / rows`. -/
def tileCH (s : MState) (vh : ℚ) : ℚ := (vh - 150) / (tileRows s : ℚ)

theorem findIdx_get_id :
    ∀ (l : List WindowState), (l.map (·.id)).Nodup →
      ∀ (i : Nat) (hi : i < l.length),
        l.findIdx (fun v => v.id == (l.get ⟨i, hi⟩).id) = i := by
  intro l
  induction l with
  | nil => intro _ i hi; cases hi
  | cons w t ih =>
      intro hnd i hi
      simp only [List.map_cons, List.nodup_cons] at hnd
      cases i with
      | zero => simp [List.findIdx_cons]
      | succ i =>
          have hit : i < t.length := Nat.lt_of_succ_lt_succ hi
          have hne : w.id ≠ (t.get ⟨i, hit⟩).id := by
            intro he
            exact hnd.1 (he ▸ List.mem_map_of_mem (·.id) (t.get_mem _ _))
          have : (t.get ⟨i, hit⟩).id = ((w :: t).get ⟨i + 1, hi⟩).id := rfl
          rw [List.findIdx_cons]
          have hb : (w.id == ((w :: t).get ⟨i + 1, hi⟩).id) = false := by
            rw [← this]
            exact beq_eq_false_iff_ne.mpr hne
          rw [hb]
          show (t.findIdx fun v => v.id == ((w :: t).get ⟨i + 1, hi⟩).id) + 1 = i + 1
          rw [← this]
          rw [ih hnd.2 i hit]

/-- CLAIM C7 (confirmed).  `arrangeWindows('tile')` with `n` visible
windows uses a grid of `cols = ceil(sqrt(n))` columns and
`rows = ceil(n/cols)` rows covering all `n` windows; the `i`-th visible
window is placed at the cell `(i mod cols, i div cols)` over the
viewport minus the fixed margins, sized to the cell minus the 10px
gutter, and the rectangles of two distinct visible windows never
overlap (they are separated by the gutter). -/
theorem c7_tile_grid (s : MState) (vw vh : ℚ)
    (hnd : IdsDistinct s) (hvw : 100 ≤ vw) (hvh : 150 ≤ vh) :
    ((visList s).length ≤ tileCols s * tileRows s) ∧
    (∀ (i : Nat) (hi : i < (visList s).length),
      ∃ w' ∈ (arrangeWindows Arrangement.tile vw vh s).windows,
        w'.id = ((visList s).get ⟨i, hi⟩).id ∧
        w'.position = ⟨50 + ((i % tileCols s : Nat) : ℚ) * tileCW s vw,
                       50 + ((i / tileCols s : Nat) : ℚ) * tileCH s vh⟩ ∧
        w'.size = ⟨tileCW s vw - 10, tileCH s vh - 10⟩ ∧
        w'.isMaximized = false) ∧
    (∀ i j : Nat, i < (visList s).length → j < (visList s).length → i ≠ j →
      (50 + ((i % tileCols s : Nat) : ℚ) * tileCW s vw + (tileCW s vw - 10)
          ≤ 50 + ((j % tileCols s : Nat) : ℚ) * tileCW s vw) ∨
      (50 + ((j % tileCols s : Nat) : ℚ) * tileCW s vw + (tileCW s vw - 10)
          ≤ 50 + ((i % tileCols s : Nat) : ℚ) * tileCW s vw) ∨
      (50 + ((i / tileCols s : Nat) : ℚ) * tileCH s vh + (tileCH s vh - 10)
          ≤ 50 + ((j / tileCols s : Nat) : ℚ) * tileCH s vh) ∨
      (50 + ((j / tileCols s : Nat) : ℚ) * tileCH s vh + (tileCH s vh - 10)
          ≤ 50 + ((i / tileCols s : Nat) : ℚ) * tileCH s vh)) := by
  have hcw : 0 ≤ tileCW s vw := by
    unfold tileCW
    apply div_nonneg (by linarith)
    exact_mod_cast Nat.zero_le _
  have hch : 0 ≤ tileCH s vh := by
    unfold tileCH
    apply div_nonneg (by linarith)
    exact_mod_cast Nat.zero_le _
  refine ⟨?_, ?_, ?_⟩
  · rcases Nat.eq_zero_or_pos (visList s).length with h0 | hpos
    · simp [tileRows, tileCols, ceilDiv, ceilSqrt, h0]
    · have hc : 0 < tileCols s := by
        unfold tileCols ceilSqrt
        rcases Nat.eq_zero_or_pos (Nat.sqrt (visList s).length) with hs | hs
        · have := Nat.sqrt_eq_zero.mp hs
          omega
        · split <;> omega
      unfold tileRows ceilDiv
      have hdm := Nat.div_add_mod ((visList s).length + tileCols s - 1) (tileCols s)
      have hmlt := Nat.mod_lt ((visList s).length + tileCols s - 1) hc
      omega
  · intro i hi
    have hw : (visList s).get ⟨i, hi⟩ ∈ visList s := (visList s).get_mem _ _
    have hws : (visList s).get ⟨i, hi⟩ ∈ s.windows := (List.mem_filter.mp hw).1
    have hmin : ((visList s).get ⟨i, hi⟩).isMinimized = false := by
      have := (List.mem_filter.mp hw).2
      simpa using this
    have hndv : ((visList s).map (·.id)).Nodup := by
      have hsub : List.Sublist ((visList s).map (·.id)) (s.windows.map (·.id)) :=
        (List.filter_sublist s.windows).map (·.id)
      exact List.Nodup.sublist hsub hnd
    have hfind := findIdx_get_id (visList s) hndv i hi
    refine ⟨_, List.mem_map.mpr ⟨(visList s).get ⟨i, hi⟩, hws, rfl⟩, ?_⟩
    rw [if_neg (by simpa using hmin)]
    refine ⟨rfl, ?_, ?_, rfl⟩
    · show (⟨50 + (((visList s).findIdx _ % tileCols s : Nat) : ℚ) * tileCW s vw,
             50 + (((visList s).findIdx _ / tileCols s : Nat) : ℚ) * tileCH s vh⟩ : Pt) = _
      rw [hfind]
    · show (⟨tileCW s vw - 10, tileCH s vh - 10⟩ : Sz) = _
      rfl
  · intro i j hi hj hij
    by_cases hmod : i % tileCols s = j % tileCols s
    · have hc : 0 < tileCols s := by
        rcases Nat.eq_zero_or_pos (tileCols s) with h0 | h
        · exfalso
          rw [h0] at hmod
          simp only [Nat.mod_zero] at hmod
          exact hij hmod
        · exact h
      have hdiv : i / tileCols s ≠ j / tileCols s := by
        intro hdv
        apply hij
        have hi2 := Nat.div_add_mod i (tileCols s)
        have hj2 := Nat.div_add_mod j (tileCols s)
        rw [hdv, hmod] at hi2
        omega
      rcases Nat.lt_or_ge (i / tileCols s) (j / tileCols s) with hlt | hge
      · refine Or.inr (Or.inr (Or.inl ?_))
        have hcast : ((i / tileCols s : Nat) : ℚ) + 1 ≤ ((j / tileCols s : Nat) : ℚ) := by
          exact_mod_cast Nat.succ_le_of_lt hlt
        nlinarith [mul_le_mul_of_nonneg_right hcast hch]
      · have hlt : j / tileCols s < i / tileCols s := Nat.lt_of_le_of_ne hge (Ne.symm hdiv)
        refine Or.inr (Or.inr (Or.inr ?_))
        have hcast : ((j / tileCols s : Nat) : ℚ) + 1 ≤ ((i / tileCols s : Nat) : ℚ) := by
          exact_mod_cast Nat.succ_le_of_lt hlt
        nlinarith [mul_le_mul_of_nonneg_right hcast hch]
    · rcases Nat.lt_or_ge (i % tileCols s) (j % tileCols s) with hlt | hge
      · refine Or.inl ?_
        have hcast : ((i % tileCols s : Nat) : ℚ) + 1 ≤ ((j % tileCols s : Nat) : ℚ) := by
          exact_mod_cast Nat.succ_le_of_lt hlt
        nlinarith [mul_le_mul_of_nonneg_right hcast hcw]
      · have hlt : j % tileCols s < i % tileCols s := Nat.lt_of_le_of_ne hge (Ne.symm hmod)
        refine Or.inr (Or.inl ?_)
        have hcast : ((j % tileCols s : Nat) : ℚ) + 1 ≤ ((i % tileCols s : Nat) : ℚ) := by
          exact_mod_cast Nat.succ_le_of_lt hlt
        nlinarith [mul_le_mul_of_nonneg_right hcast hcw]

/-- Two-visible-window state for the C7 witness. -/
def sC7 : MState := createWindow "B" 0 {} (createWindow "A" 0 {} initState)

/-- Witness for C7 at a concrete state: two visible windows fit the
2 × 1 grid. -/
theorem c7_tile_grid_witness :
    (visList sC7).length ≤ tileCols sC7 * tileRows sC7 :=
  (c7_tile_grid sC7 1300 950 (by unfold IdsDistinct; decide)
    (by norm_num) (by norm_num)).1

/-! ### C1: z-order invariant machinery -/

theorem nodup_map_pairwise {α β : Type} (f : α → β) (l : List α) :
    (l.map f).Nodup ↔ l.Pairwise fun a b => f a ≠ f b := by
  show (l.map f).Pairwise (· ≠ ·) ↔ _
  rw [List.pairwise_map]

theorem map_map_proj {α β : Type} (f : α → α) (proj : α → β) (l : List α)
    (h : ∀ a, proj (f a) = proj a) : (l.map f).map proj = l.map proj := by
  rw [List.map_map]
  exact List.map_congr_left fun a _ => h a

theorem snd_mem_of_mem_enum {α : Type} {l : List α} {p : Nat × α}
    (hp : p ∈ l.enum) : p.2 ∈ l := by
  have := List.mem_map_of_mem Prod.snd hp
  rwa [List.enum_map_snd] at this

theorem inv_init : Inv initState := by
  refine ⟨?_, ?_, ?_, ?_⟩ <;> first
    | exact fun w hw => absurd hw (List.not_mem_nil w)
    | exact List.nodup_nil

theorem inv_create {s : MState} (t : String) (c : Nat) (o : WindowOptions)
    (hid : o.id = none) (hz : o.zIndex = none) (h : Inv s) :
    Inv (createWindow t c o s) := by
  obtain ⟨hzb, hib, hzd, hid'⟩ := h
  have hwz : ∀ w ∈ (createWindow t c o s).windows,
      w.zIndex = s.nextZIndex ∨ w.zIndex < s.nextZIndex := by
    intro w hw
    rcases List.mem_append.mp hw with hw | hw
    · exact Or.inr (hzb w hw)
    · rcases List.mem_singleton.mp hw with rfl
      left
      simp [mkWindow, hz]
  have hwi : ∀ w ∈ (createWindow t c o s).windows,
      w.id = s.nextId ∨ w.id < s.nextId := by
    intro w hw
    rcases List.mem_append.mp hw with hw | hw
    · exact Or.inr (hib w hw)
    · rcases List.mem_singleton.mp hw with rfl
      left
      simp [mkWindow, hid]
  refine ⟨?_, ?_, ?_, ?_⟩
  · intro w hw
    rcases hwz w hw with he | hl <;> show w.zIndex < s.nextZIndex + 1 <;> omega
  · intro w hw
    rcases hwi w hw with he | hl <;> show w.id < s.nextId + 1 <;> omega
  · simp only [ZDistinct, createWindow, List.map_append, List.map_cons, List.map_nil]
    refine List.Nodup.append hzd (List.nodup_singleton _) ?_
    intro z hz1 hz2
    rcases List.mem_map.mp hz1 with ⟨w, hw, rfl⟩
    rcases List.mem_singleton.mp hz2 with he
    have : w.zIndex < s.nextZIndex := hzb w hw
    rw [he] at this
    simp [mkWindow, hz] at this
  · simp only [IdsDistinct, createWindow, List.map_append, List.map_cons, List.map_nil]
    refine List.Nodup.append hid' (List.nodup_singleton _) ?_
    intro z hz1 hz2
    rcases List.mem_map.mp hz1 with ⟨w, hw, rfl⟩
    rcases List.mem_singleton.mp hz2 with he
    have : w.id < s.nextId := hib w hw
    rw [he] at this
    simp [mkWindow, hid] at this

theorem inv_focus {s : MState} (id : Nat) (h : Inv s) : Inv (focusWindow id s) := by
  obtain ⟨hzb, hib, hzd, hid'⟩ := h
  refine ⟨?_, ?_, ?_, ?_⟩
  · intro w hw
    rcases List.mem_map.mp hw with ⟨u, hu, rfl⟩
    show (if u.id = id then s.nextZIndex else u.zIndex) < s.nextZIndex + 1
    split
    · omega
    · have := hzb u hu
      omega
  · intro w hw
    rcases List.mem_map.mp hw with ⟨u, hu, rfl⟩
    exact hib u hu
  · simp only [ZDistinct, focusWindow, List.map_map]
    rw [nodup_map_pairwise]
    have hzp := (nodup_map_pairwise (fun w : WindowState => w.zIndex) s.windows).mp hzd
    have hip := (nodup_map_pairwise (fun w : WindowState => w.id) s.windows).mp hid'
    refine List.Pairwise.imp_of_mem ?_ (hzp.and hip)
    intro a b ha hb hab
    show (if a.id = id then s.nextZIndex else a.zIndex)
        ≠ (if b.id = id then s.nextZIndex else b.zIndex)
    by_cases ha' : a.id = id <;> by_cases hb' : b.id = id
    · exact absurd (ha'.trans hb'.symm) hab.2
    · rw [if_pos ha', if_neg hb']
      have := hzb b hb
      omega
    · rw [if_neg ha', if_pos hb']
      have := hzb a ha
      omega
    · rw [if_neg ha', if_neg hb']
      exact hab.1
  · simp only [IdsDistinct, focusWindow]
    rw [map_map_proj
      (fun w : WindowState =>
        { w with zIndex := if w.id = id then s.nextZIndex else w.zIndex })
      (fun w : WindowState => w.id) s.windows (fun a => rfl)]
    exact hid'

theorem inv_close {s : MState} (id : Nat) (h : Inv s) : Inv (closeWindow id s) := by
  obtain ⟨hzb, hib, hzd, hid'⟩ := h
  have hsub : List.Sublist ((closeWindow id s).windows) s.windows :=
    List.filter_sublist s.windows
  refine ⟨?_, ?_, ?_, ?_⟩
  · exact fun w hw => hzb w (hsub.mem hw)
  · exact fun w hw => hib w (hsub.mem hw)
  · exact List.Nodup.sublist (hsub.map (·.zIndex)) hzd
  · exact List.Nodup.sublist (hsub.map (·.id)) hid'

theorem inv_map_idz {s : MState} (f : WindowState → WindowState)
    (hfi : ∀ w, (f w).id = w.id) (hfz : ∀ w, (f w).zIndex = w.zIndex)
    (h : Inv s) :
    Inv { windows := s.windows.map f, nextZIndex := s.nextZIndex, nextId := s.nextId } := by
  obtain ⟨hzb, hib, hzd, hid'⟩ := h
  refine ⟨?_, ?_, ?_, ?_⟩
  · intro w hw
    rcases List.mem_map.mp hw with ⟨u, hu, rfl⟩
    show (f u).zIndex < s.nextZIndex
    rw [hfz]
    exact hzb u hu
  · intro w hw
    rcases List.mem_map.mp hw with ⟨u, hu, rfl⟩
    show (f u).id < s.nextId
    rw [hfi]
    exact hib u hu
  · show ((s.windows.map f).map (·.zIndex)).Nodup
    rw [map_map_proj f _ _ hfz]
    exact hzd
  · show ((s.windows.map f).map (·.id)).Nodup
    rw [map_map_proj f _ _ hfi]
    exact hid'

theorem inv_enum_map_idz {s : MState} (g : Nat × WindowState → WindowState)
    (hgi : ∀ i a, (g (i, a)).id = a.id) (hgz : ∀ i a, (g (i, a)).zIndex = a.zIndex)
    (h : Inv s) :
    Inv { windows := s.windows.enum.map g, nextZIndex := s.nextZIndex, nextId := s.nextId } := by
  obtain ⟨hzb, hib, hzd, hid'⟩ := h
  refine ⟨?_, ?_, ?_, ?_⟩
  · intro w hw
    rcases List.mem_map.mp hw with ⟨p, hp, rfl⟩
    cases p with
    | mk i a =>
        show (g (i, a)).zIndex < s.nextZIndex
        rw [hgz]
        exact hzb a (snd_mem_of_mem_enum hp)
  · intro w hw
    rcases List.mem_map.mp hw with ⟨p, hp, rfl⟩
    cases p with
    | mk i a =>
        show (g (i, a)).id < s.nextId
        rw [hgi]
        exact hib a (snd_mem_of_mem_enum hp)
  · show (((List.enumFrom 0 s.windows).map g).map (fun w : WindowState => w.zIndex)).Nodup
    rw [enum_map_keep g (fun w : WindowState => w.zIndex) (fun i a => hgz i a) s.windows 0]
    exact hzd
  · show (((List.enumFrom 0 s.windows).map g).map (fun w : WindowState => w.id)).Nodup
    rw [enum_map_keep g (fun w : WindowState => w.id) (fun i a => hgi i a) s.windows 0]
    exact hid'

theorem inv_reach {s : MState} (h : BenignReach s) : Inv s := by
  induction h with
  | init => exact inv_init
  | create t c o hid hz _ ih => exact inv_create t c o hid hz ih
  | focus id _ ih => exact inv_focus id ih
  | close id _ ih => exact inv_close id ih
  | mini id _ ih => exact inv_map_idz _ (fun w => rfl) (fun w => rfl) ih
  | maxi id _ ih => exact inv_map_idz _ (fun w => rfl) (fun w => rfl) ih
  | movePos id p _ ih => exact inv_map_idz _ (fun w => rfl) (fun w => rfl) ih
  | resize id sz _ ih => exact inv_map_idz _ (fun w => rfl) (fun w => rfl) ih
  | cascade vw vh _ ih => exact inv_enum_map_idz _ (fun i a => rfl) (fun i a => rfl) ih
  | tile vw vh _ ih =>
      refine inv_map_idz _ (fun w => ?_) (fun w => ?_) ih <;>
        by_cases hm : w.isMinimized <;> simp [hm]

theorem focus_strictTop {s : MState} (i : Nat) (h : Inv s) :
    StrictTop i (focusWindow i s) := by
  obtain ⟨hzb, _, _, _⟩ := h
  intro w hw hwid w' hw' hw'id
  rcases List.mem_map.mp hw with ⟨u, hu, rfl⟩
  rcases List.mem_map.mp hw' with ⟨u', hu', rfl⟩
  have huid : u.id = i := hwid
  have hu'id : u'.id ≠ i := hw'id
  show (if u'.id = i then s.nextZIndex else u'.zIndex)
      < (if u.id = i then s.nextZIndex else u.zIndex)
  rw [if_pos huid, if_neg hu'id]
  exact hzb u' hu'

theorem create_strictTop {s : MState} (t : String) (c : Nat) (o : WindowOptions)
    (hid : o.id = none) (hz : o.zIndex = none) (h : Inv s) :
    StrictTop s.nextId (createWindow t c o s) := by
  obtain ⟨hzb, hib, _, _⟩ := h
  intro w hw hwid w' hw' hw'id
  rcases List.mem_append.mp hw with hin | hnew
  · exact absurd hwid (Nat.ne_of_lt (hib w hin))
  · rcases List.mem_singleton.mp hnew with rfl
    rcases List.mem_append.mp hw' with hin' | hnew'
    · have hzeq : ∀ dp : Pt,
          (mkWindow s.nextId dp s.nextZIndex t c o).zIndex = s.nextZIndex := by
        intro dp
        simp [mkWindow, hz]
      rw [hzeq]
      exact hzb w' hin'
    · rcases List.mem_singleton.mp hnew' with rfl
      exfalso
      apply hw'id
      simp [mkWindow, hid]

/-- The `(id, zIndex)` association of the live window list. -/
def zidMap (s : MState) : List (Nat × Nat) :=
  s.windows.map fun w => (w.id, w.zIndex)

/-- Concrete counterexample states for C1: a preset applied after two
creations (both preset windows receive the stale counter value 3), and a
stack arrangement after focusing window 0 (stack renumbers by list
order, demoting the most recently focused window). -/
def sC1p : MState :=
  applyLayoutPreset preC8 (createWindow "B" 0 {} (createWindow "A" 0 {} initState))

def sC1s : MState :=
  arrangeWindows Arrangement.stack 1280 800
    (focusWindow 0 (createWindow "B" 0 {} (createWindow "A" 0 {} initState)))

/-- CLAIM C1 (counterexample).  Both states are reachable by the
operations the claim quantifies over, yet: after `applyLayoutPreset`
the two live windows share zIndex 3 (pairwise distinctness fails), and
after `arrangeWindows('stack')` the most recently focused window 0
holds zIndex 1 while window 1 holds zIndex 2 (the most recently focused
window does not hold the highest zIndex). -/
theorem c1_zorder_cx :
    Reach sC1p ∧ ¬ ZDistinct sC1p ∧
    Reach sC1s ∧ (zidMap sC1s = [(0, 1), (1, 2)]) := by
  refine ⟨?_, ?_, ?_, ?_⟩
  · exact Reach.preset preC8 (by decide)
      (Reach.create "B" 0 {} rfl rfl (Reach.create "A" 0 {} rfl rfl Reach.init))
  · unfold ZDistinct
    decide
  · exact Reach.arrange Arrangement.stack 1280 800
      (Reach.focus 0
        (Reach.create "B" 0 {} rfl rfl (Reach.create "A" 0 {} rfl rfl Reach.init)))
  · unfold zidMap
    decide

/-- CLAIM C1 (amended).  Under every operation sequence that avoids
`applyLayoutPreset` and `arrangeWindows('stack')` (creations without
id/zIndex overrides, focus, close, minimize, maximize, position/size
updates, cascade and tile arrangements), the live zIndex values are
pairwise distinct; immediately after `focusWindow(i)` the window `i`
holds the strictly highest zIndex, and likewise the window created by
`createWindow`; all other listed operations leave every window's
`(id, zIndex)` association unchanged, so the top window stays on top
until the next focus/create.  The two excluded operations break the
invariant: `applyLayoutPreset` gives every preset window the same
(stale) counter value, and `arrangeWindows('stack')` renumbers zIndex
by list position. -/
theorem c1_zorder_amended :
    (∀ s : MState, BenignReach s → ZDistinct s) ∧
    (∀ (s : MState) (i : Nat), BenignReach s → StrictTop i (focusWindow i s)) ∧
    (∀ (s : MState) (t : String) (c : Nat) (o : WindowOptions),
      BenignReach s → o.id = none → o.zIndex = none →
      StrictTop s.nextId (createWindow t c o s)) ∧
    (∀ (s : MState) (id : Nat) (p : Pt) (sz : Sz) (vw vh : ℚ),
      zidMap (minimizeWindow id s) = zidMap s ∧
      zidMap (maximizeWindow id s) = zidMap s ∧
      zidMap (updateWindowPosition id p s) = zidMap s ∧
      zidMap (updateWindowSize id sz s) = zidMap s ∧
      zidMap (arrangeWindows Arrangement.cascade vw vh s) = zidMap s ∧
      zidMap (arrangeWindows Arrangement.tile vw vh s) = zidMap s) ∧
    (∀ (s : MState) (vw vh : ℚ),
      (arrangeWindows Arrangement.stack vw vh s).windows.map (·.zIndex)
        = (List.range s.windows.length).map fun i => i + 1) ∧
    (∀ (s : MState) (pre : List WindowOptions),
      (∀ o ∈ pre, o.zIndex = none) →
      ∀ w' ∈ (applyLayoutPreset pre s).windows, w'.zIndex = s.nextZIndex) := by
  refine ⟨?_, ?_, ?_, ?_, ?_, ?_⟩
  · exact fun s h => (inv_reach h).2.2.1
  · exact fun s i h => focus_strictTop i (inv_reach h)
  · exact fun s t c o h hid hz => create_strictTop t c o hid hz (inv_reach h)
  · intro s id p sz vw vh
    refine ⟨?_, ?_, ?_, ?_, ?_, ?_⟩
    · exact map_map_proj _ (fun w : WindowState => (w.id, w.zIndex)) s.windows
        fun a => rfl
    · exact map_map_proj _ (fun w : WindowState => (w.id, w.zIndex)) s.windows
        fun a => rfl
    · exact map_map_proj _ (fun w : WindowState => (w.id, w.zIndex)) s.windows
        fun a => rfl
    · exact map_map_proj _ (fun w : WindowState => (w.id, w.zIndex)) s.windows
        fun a => rfl
    · exact enum_map_keep _ (fun w : WindowState => (w.id, w.zIndex))
        (fun i a => rfl) s.windows 0
    · refine map_map_proj _ (fun w : WindowState => (w.id, w.zIndex)) s.windows
        fun a => ?_
      by_cases hm : a.isMinimized <;> simp [hm]
  · intro s vw vh
    rw [List.range_eq_range']
    exact enum_map_eval _ (fun w : WindowState => w.zIndex) (fun i => i + 1)
      (fun i a => rfl) s.windows 0
  · intro s pre h w' hw'
    exact presetCreate_zIndex _ _ pre.enum s.nextId
      (fun q hq => h q.2 (snd_mem_of_mem_enum hq)) w' hw'

/-- Witness for C1 (amended): a concrete benign trace (create then
focus) has pairwise-distinct zIndex values. -/
theorem c1_zorder_witness :
    ZDistinct (focusWindow 0 (createWindow "A" 0 {} initState)) :=
  c1_zorder_amended.1 (focusWindow 0 (createWindow "A" 0 {} initState))
    (BenignReach.focus 0 (BenignReach.create "A" 0 {} rfl rfl BenignReach.init))

end WM
